import Mathlib

/-!
# Dynamic Collection Engine — verification development

Shallow embedding of the repository's Dynamic Collection Engine: the plpgsql
functions `create_content_type`, `insert_into_content_type`,
`update_content_type_data` and `delete_content_type_data` (src/readme.md),
together with the PostgreSQL primitives they rely on (`quote_ident`,
`quote_literal`, `jsonb` text serialization, `format` with `%I`/`%s`,
`TRIM(BOTH ', ' ...)`), and a structural model of the relational store the
built statements execute against.

SQL `TEXT` is modelled as `List Char`; jsonb values as the inductive
`JsonVal` (an object's fields are carried in jsonb's canonical key order,
which is the order `jsonb_each` iterates).
-/

namespace AgileCms

/-- Characters PostgreSQL treats as safe in an unquoted identifier body
(`quote_identifier` in ruleutils.c): lowercase ASCII letters, digits, `_`. -/
def safeIdentChar (c : Char) : Bool :=
  (('a' ≤ c) && (c ≤ 'z')) || (('0' ≤ c) && (c ≤ '9')) || c = '_'

/-- Characters that may start an unquoted identifier: lowercase letters and `_`. -/
def safeIdentStart (c : Char) : Bool :=
  (('a' ≤ c) && (c ≤ 'z')) || c = '_'

/-- A name needs no quoting when nonempty, starting with a safe start
character, and containing only safe body characters.  Modelled from
PostgreSQL `quote_ident`; the additional reserved-keyword check (which only
forces quoting of certain all-lowercase words, themselves already single
identifier tokens) is omitted — no property below depends on it. -/
def isSafeUnquoted (cs : List Char) : Bool :=
  match cs with
  | [] => false
  | c :: rest => safeIdentStart c && rest.all safeIdentChar

/-- Double every `"` character (the escaping `quote_ident` applies inside a
quoted identifier). -/
def escDoubleQuote : List Char → List Char
  | [] => []
  | c :: rest =>
    if c = '"' then '"' :: '"' :: escDoubleQuote rest
    else c :: escDoubleQuote rest

/-- PostgreSQL `quote_ident` (also the behaviour of `format`'s `%I`): return
the name unchanged when it is a safe unquoted identifier, otherwise wrap it
in double quotes, doubling every embedded `"`. It never fails: every input,
including the empty string, yields one identifier token. -/
def quote_ident (cs : List Char) : List Char :=
  if isSafeUnquoted cs then cs else '"' :: (escDoubleQuote cs ++ ['"'])

/-- Double every `'` (standard string-literal escaping). -/
def escLitStd : List Char → List Char
  | [] => []
  | c :: rest =>
    if c = '\'' then '\'' :: '\'' :: escLitStd rest
    else c :: escLitStd rest

/-- Double every `'` and every `\` (escaping inside an `E'...'` literal). -/
def escLitE : List Char → List Char
  | [] => []
  | c :: rest =>
    if c = '\'' then '\'' :: '\'' :: escLitE rest
    else if c = '\\' then '\\' :: '\\' :: escLitE rest
    else c :: escLitE rest

/-- PostgreSQL `quote_literal`: wrap the text in single quotes, doubling
embedded single quotes; when the text contains a backslash the `E'...'`
form is used and backslashes are doubled as well. -/
def quote_literal (cs : List Char) : List Char :=
  if cs.contains '\\' then 'E' :: '\'' :: (escLitE cs ++ ['\''])
  else '\'' :: (escLitStd cs ++ ['\''])

/-- A jsonb value. Object fields are listed in jsonb's canonical key order
(the iteration order of `jsonb_each`), with distinct keys. -/
inductive JsonVal where
  | null
  | bool (b : Bool)
  | num (n : Int)
  | str (s : String)
  | arr (elems : List JsonVal)
  | obj (fields : List (String × JsonVal))

/-- JSON string-body escaping used by jsonb's text form: `"` and `\` are
backslash-escaped. (Control-character `\uXXXX` escapes are not modelled;
no property below involves control characters.) -/
def escJson : List Char → List Char
  | [] => []
  | c :: rest =>
    if c = '"' then '\\' :: '"' :: escJson rest
    else if c = '\\' then '\\' :: '\\' :: escJson rest
    else c :: escJson rest

mutual

/-- The text form of a jsonb value — what `value::text` (and hence
`quote_literal(value)` for a `jsonb` value) serializes: JSON syntax, with
strings keeping their surrounding double quotes, `", "` between members and
`": "` after object keys, exactly as jsonb prints. -/
def jsonTextOf : JsonVal → List Char
  | .null => "null".data
  | .bool true => "true".data
  | .bool false => "false".data
  | .num n => (toString n).data
  | .str s => '"' :: (escJson s.data ++ ['"'])
  | .arr es => '[' :: (jsonTextArr es ++ [']'])
  | .obj fs => '{' :: (jsonTextObj fs ++ ['}'])

/-- Serialize array elements, `", "`-separated. -/
def jsonTextArr : List JsonVal → List Char
  | [] => []
  | [v] => jsonTextOf v
  | v :: rest => jsonTextOf v ++ ", ".data ++ jsonTextArr rest

/-- Serialize object fields, `", "`-separated, `": "` after each key. -/
def jsonTextObj : List (String × JsonVal) → List Char
  | [] => []
  | [(k, v)] => '"' :: (escJson k.data ++ ['"']) ++ ": ".data ++ jsonTextOf v
  | (k, v) :: rest =>
      '"' :: (escJson k.data ++ ['"']) ++ ": ".data ++ jsonTextOf v
        ++ ", ".data ++ jsonTextObj rest

end

/-- The sole value-encoding point of the engine: `quote_literal` applied to
the jsonb value's text form, exactly as `insert_into_content_type` and
`update_content_type_data` compute `quote_literal(column_entry.value)`. -/
def encodeValue (v : JsonVal) : List Char :=
  quote_literal (jsonTextOf v)

/-- Membership in the `TRIM(BOTH ', ' FROM _)` character set. -/
def isTrimChar (c : Char) : Bool := c = ',' || c = ' '

/-- SQL `TRIM(BOTH ', ' FROM s)`: strip every leading and trailing character
drawn from the set `{',', ' '}`. -/
def trimCS (cs : List Char) : List Char :=
  ((cs.dropWhile isTrimChar).reverse.dropWhile isTrimChar).reverse

/-- Decimal text of an integer (what `format`'s `%s` prints for an `INT`). -/
def intChars (n : Int) : List Char := (toString n).data

/-- The column-name list of `insert_into_content_type`: fold
`quote_ident(key) || ', '` over the record, then `TRIM(BOTH ', ')`. -/
def insertNames (data : List (String × JsonVal)) : List Char :=
  trimCS (data.foldl (fun acc kv => acc ++ quote_ident kv.1.data ++ ", ".data) [])

/-- The value list of `insert_into_content_type`: fold
`quote_literal(value) || ', '` over the record, then `TRIM(BOTH ', ')`. -/
def insertValues (data : List (String × JsonVal)) : List Char :=
  trimCS (data.foldl (fun acc kv => acc ++ encodeValue kv.2 ++ ", ".data) [])

/-- The `SET` fragment list of `update_content_type_data`: fold
`quote_ident(key) || ' = ' || quote_literal(value) || ', '`, then trim. -/
def updatePairs (upd : List (String × JsonVal)) : List Char :=
  trimCS (upd.foldl
    (fun acc kv => acc ++ quote_ident kv.1.data ++ " = ".data ++ encodeValue kv.2 ++ ", ".data)
    [])

/-- One column definition fragment of `create_content_type`:
`format('%s %s %s, ', quote_ident(name), type, constraints)`. The
constraints text is carried verbatim (spec §3/§9: it is not sanitized). -/
def columnDefFragment (name ctype constr : String) : List Char :=
  quote_ident name.data ++ [' '] ++ ctype.data ++ [' '] ++ constr.data ++ ", ".data

/-- The trimmed column-definition text of `create_content_type`. -/
def columnDefsText (schema : List (String × String × String)) : List Char :=
  trimCS (schema.foldl (fun acc e => acc ++ columnDefFragment e.1 e.2.1 e.2.2) [])

/-- Statement text of `create_content_type`'s `EXECUTE`:
`format('CREATE TABLE IF NOT EXISTS %I (id SERIAL PRIMARY KEY, %s);', table_name, defs)`. -/
def create_stmt (tbl : String) (defs : List Char) : List Char :=
  "CREATE TABLE IF NOT EXISTS ".data ++ quote_ident tbl.data
    ++ " (id SERIAL PRIMARY KEY, ".data ++ defs ++ ");".data

/-- Statement text of `insert_into_content_type`'s `EXECUTE`:
`format('INSERT INTO %I (%s) VALUES (%s);', table_name, names, values)`. -/
def insert_stmt (tbl : String) (data : List (String × JsonVal)) : List Char :=
  "INSERT INTO ".data ++ quote_ident tbl.data ++ " (".data ++ insertNames data
    ++ ") VALUES (".data ++ insertValues data ++ ");".data

/-- Statement text of `update_content_type_data`'s `EXECUTE`:
`format('UPDATE %I SET %s WHERE id = %s;', table_name, pairs, id)`. -/
def update_stmt (tbl : String) (recordId : Int) (upd : List (String × JsonVal)) : List Char :=
  "UPDATE ".data ++ quote_ident tbl.data ++ " SET ".data ++ updatePairs upd
    ++ " WHERE id = ".data ++ intChars recordId ++ ";".data

/-- Statement text of `delete_content_type_data`'s `EXECUTE`:
`format('DELETE FROM %I WHERE id = %s;', table_name, record_id)`. -/
def delete_stmt (tbl : String) (recordId : Int) : List Char :=
  "DELETE FROM ".data ++ quote_ident tbl.data ++ " WHERE id = ".data
    ++ intChars recordId ++ ";".data

/-! ## Store model

The built statements are executed by PostgreSQL (`EXECUTE`). The store is
modelled structurally: since `quote_ident` embeds every raw name as exactly
the identifier token denoting that raw string (proved below), and the
engine's statements follow the fixed templates above, executing a built
statement is modelled as the corresponding structured operation on a table
state. Stored cell contents are the coercion of the embedded literal's text
to the column's declared type, exactly the text `quote_literal` delimited. -/

/-- A stored cell value. `JSONB`, `TIMESTAMP` and `DATE` cells are kept as
their literal text (jsonb normalization and date parsing are not modelled;
every literal the engine produces for them is already in canonical form). -/
inductive StoredVal where
  | sNull
  | sInt (n : Int)
  | sBool (b : Bool)
  | sText (cs : List Char)
deriving DecidableEq

/-- A store-level failure (the plpgsql exception an `EXECUTE` can raise). -/
inductive StoreError where
  | tableMissing
  | zeroLengthIdentifier
  | duplicateColumn
  | undefinedColumn (name : String)
  | invalidLiteral
  | other (msg : String)
deriving DecidableEq

/-- A table: its column definitions (name, declared type, verbatim
constraint text; the auto `id` column first), its rows (each an assignment
of every column name to a stored value), and the serial sequence's next
value. Constraint text is carried verbatim and not interpreted (spec §3/§9);
`pgExecCreate` vouches only for texts in the modelled-safe grammar and
reports a store failure for the rest, and the store-quantified theorems
below cover every further store-side effect of verbatim text. -/
structure Table where
  cols : List (String × String × String)
  rows : List (List (String × StoredVal))
  nextId : Int
deriving DecidableEq

/-- The relational store's state: tables by name. -/
abbrev State : Type := List (String × Table)

/-- The auto-assigned primary identifier column every created table carries:
`id SERIAL PRIMARY KEY`. -/
def idColumn : String × String × String := ("id", "SERIAL", "PRIMARY KEY")

/-- Look a table up by name. -/
def lookupTable (s : State) (tbl : String) : Option Table :=
  List.lookup tbl s

/-- Replace a table's contents. -/
def setTable (s : State) (tbl : String) (t : Table) : State :=
  s.map fun e => if e.1 = tbl then (tbl, t) else e

/-- Decimal-digit test. -/
def isDigitChar (c : Char) : Bool := ('0' ≤ c) && (c ≤ '9')

/-- Parse a decimal digit string to a `Nat`. -/
def digitsToNat (cs : List Char) : Nat :=
  cs.foldl (fun acc c => acc * 10 + (c.toNat - '0'.toNat)) 0

/-- Parse integer literal text (an optional `-` then digits). -/
def parseIntText (cs : List Char) : Option Int :=
  match cs with
  | '-' :: ds =>
    if ds ≠ [] && ds.all isDigitChar then some (-(digitsToNat ds : Int)) else none
  | ds =>
    if ds ≠ [] && ds.all isDigitChar then some (digitsToNat ds : Int) else none

/-- Parse boolean literal text (PostgreSQL's accepted spellings; the
case-insensitive and prefix variants it additionally accepts never arise
from the engine's encoder and are not modelled). -/
def parseBoolText (cs : List Char) : Option Bool :=
  if cs = "true".data || cs = "t".data || cs = "yes".data || cs = "on".data
      || cs = "1".data then some true
  else if cs = "false".data || cs = "f".data || cs = "no".data || cs = "off".data
      || cs = "0".data then some false
  else none

/-- Coerce a literal's text to a column's declared type, as the store does
when the literal is inserted into or assigned to that column. `NUMERIC`
accepts the integer literals the engine's `Int`-modelled numbers produce
(decimal fractions are not modelled). -/
def coerceLiteral (ctype : String) (lit : List Char) : Option StoredVal :=
  if ctype = "TEXT" then some (.sText lit)
  else if ctype = "INTEGER" || ctype = "SERIAL" || ctype = "NUMERIC" then
    (parseIntText lit).map .sInt
  else if ctype = "BOOLEAN" then (parseBoolText lit).map .sBool
  else if ctype = "JSONB" || ctype = "TIMESTAMP" || ctype = "DATE" then
    some (.sText lit)
  else none

/-- The literal text a jsonb value crosses into the store as: the content of
`encodeValue`'s delimiters (what the store sees after unescaping the
quoting, i.e. the jsonb text form itself). -/
def literalContentOf (v : JsonVal) : List Char := jsonTextOf v

/-- Constraint texts whose store-side behaviour the model commits to: the
empty text and `NOT NULL`, each accepted by PostgreSQL in every column
definition regardless of the column's type. `create_content_type`
interpolates constraint text verbatim (spec §3/§9), so any other text can
make the real `CREATE TABLE` fail — a syntax error, a second
`PRIMARY KEY`, an ill-typed `DEFAULT` — or alter the definition; the model
conservatively reports a store failure for such text instead of guessing
the store's parse, so it never claims success where the store could
refuse. -/
def modelledConstraint (constr : String) : Bool :=
  constr = "" || constr = "NOT NULL"

/-- Execute `CREATE TABLE IF NOT EXISTS <tbl> (id SERIAL PRIMARY KEY, <defs>)`:
a no-op when the table exists; otherwise the table is created with the auto
`id` column followed by the caller columns. Fails on a zero-length table or
column identifier, on constraint text outside the modelled-safe grammar
(see `modelledConstraint` — the verbatim-interpolated text can make the
real statement fail, so the model refuses to vouch for it), and on
duplicate column names (including a caller column named `id`, which
collides with the auto column). -/
def pgExecCreate (s : State) (tbl : String)
    (schema : List (String × String × String)) : Except StoreError State :=
  match lookupTable s tbl with
  | some _ => .ok s
  | none =>
    if tbl = "" then .error .zeroLengthIdentifier
    else if schema.any (fun e => e.1 = "") then .error .zeroLengthIdentifier
    else if schema.any (fun e => !(modelledConstraint e.2.2)) then
      .error (.other "constraint text outside the modelled grammar")
    else if ("id" :: schema.map Prod.fst).Nodup then
      .ok ((tbl, ⟨idColumn :: schema, [], 1⟩) :: s)
    else .error .duplicateColumn

/-- The stored value of one column in a freshly inserted row: the record's
literal coerced to the column's type when the record names the column, the
next serial value for an omitted `id`, and SQL null otherwise. -/
def insertCell (t : Table) (data : List (String × JsonVal))
    (col : String × String × String) : Option StoredVal :=
  match data.lookup col.1 with
  | some v => coerceLiteral col.2.1 (literalContentOf v)
  | none => if col.1 = "id" then some (.sInt t.nextId) else some .sNull

/-- The first record key that names no column of the table, if any. -/
def missingColumn (t : Table) (data : List (String × JsonVal)) :
    Option (String × JsonVal) :=
  data.find? fun kv => !(t.cols.any fun c => c.1 = kv.1)

/-- Coerce one update pair's literal to its target column's type. -/
def coercePair (t : Table) (kv : String × JsonVal) : Option (String × StoredVal) :=
  (t.cols.lookup kv.1).bind fun spec =>
    (coerceLiteral spec.1 (literalContentOf kv.2)).map fun sv => (kv.1, sv)

/-- Execute `INSERT INTO <tbl> (<names>) VALUES (<literals>)`. Fails when the
table is missing, a record key repeats, a record key is not a column of the
table, or a literal does not coerce to its column's type. One row is
inserted; the serial sequence advances when `id` was auto-assigned. -/
def pgExecInsert (s : State) (tbl : String) (data : List (String × JsonVal)) :
    Except StoreError (Nat × State) :=
  match lookupTable s tbl with
  | none => .error .tableMissing
  | some t =>
    if (data.map Prod.fst).Nodup then
      match missingColumn t data with
      | some kv => .error (.undefinedColumn kv.1)
      | none =>
        match t.cols.mapM (fun c => (insertCell t data c).map (fun sv => (c.1, sv))) with
        | none => .error .invalidLiteral
        | some row =>
          let nextId' := if (data.map Prod.fst).contains "id" then t.nextId else t.nextId + 1
          .ok (1, setTable s tbl { t with rows := t.rows ++ [row], nextId := nextId' })
    else .error .duplicateColumn

/-- A row's stored `id` value equals the given record id. -/
def rowHasId (recordId : Int) (row : List (String × StoredVal)) : Bool :=
  row.lookup "id" = some (.sInt recordId)

/-- The updated value of one cell: reassigned when the update names its
column (already coercion-checked), kept otherwise. -/
def updateCell (upd : List (String × StoredVal)) (cell : String × StoredVal) :
    String × StoredVal :=
  match upd.lookup cell.1 with
  | some sv => (cell.1, sv)
  | none => cell

/-- Execute `UPDATE <tbl> SET <pairs> WHERE id = <recordId>`. Fails when the
table is missing, a key repeats, a key is not a column, or a literal does
not coerce (a coercion failure is raised even when zero rows match, as the
literals are constants of the statement). Returns the matched-row count. -/
def pgExecUpdate (s : State) (tbl : String) (recordId : Int)
    (upd : List (String × JsonVal)) : Except StoreError (Nat × State) :=
  match lookupTable s tbl with
  | none => .error .tableMissing
  | some t =>
    if (upd.map Prod.fst).Nodup then
      match missingColumn t upd with
      | some kv => .error (.undefinedColumn kv.1)
      | none =>
        match upd.mapM (coercePair t) with
        | none => .error .invalidLiteral
        | some pairs =>
          let touched := (t.rows.filter (rowHasId recordId)).length
          let rows' := t.rows.map fun row =>
            if rowHasId recordId row then row.map (updateCell pairs) else row
          .ok (touched, setTable s tbl { t with rows := rows' })
    else .error .duplicateColumn

/-- Execute `DELETE FROM <tbl> WHERE id = <recordId>`. Fails when the table
is missing; otherwise removes the matching rows and returns their count. -/
def pgExecDelete (s : State) (tbl : String) (recordId : Int) :
    Except StoreError (Nat × State) :=
  match lookupTable s tbl with
  | none => .error .tableMissing
  | some t =>
    let touched := (t.rows.filter (rowHasId recordId)).length
    .ok (touched, setTable s tbl { t with rows := t.rows.filter (fun r => ¬ rowHasId recordId r) })

/-- The execution interface the engine's `EXECUTE` statements go through
(spec §4.6, Execution Gateway). Quantifying the error-handling theorems over
every `Store` covers every store-level failure, including ones (constraint
violations, connectivity loss, malformed constraint text) the concrete
model `pgStore` does not enumerate. -/
structure Store where
  execCreate : State → String → List (String × String × String) → Except StoreError State
  execInsert : State → String → List (String × JsonVal) → Except StoreError (Nat × State)
  execUpdate : State → String → Int → List (String × JsonVal) → Except StoreError (Nat × State)
  execDelete : State → String → Int → Except StoreError (Nat × State)

/-- The concrete PostgreSQL store model. -/
def pgStore : Store :=
  { execCreate := pgExecCreate
    execInsert := pgExecInsert
    execUpdate := pgExecUpdate
    execDelete := pgExecDelete }

/-- A store whose every execution fails (used to exercise the
error-handling path at a concrete input). -/
def downStore : Store :=
  { execCreate := fun _ _ _ => .error (.other "connection lost")
    execInsert := fun _ _ _ => .error (.other "connection lost")
    execUpdate := fun _ _ _ _ => .error (.other "connection lost")
    execDelete := fun _ _ _ => .error (.other "connection lost") }

/-! ## The engine's operations -/

/-- A failure of `create_content_type` (which, unlike the other three
functions, has no `EXCEPTION` block: each of these propagates to the
caller as a raised exception). -/
inductive CreateError where
  | unsupportedType (t : String)
  | emptySchema
  | storeError (e : StoreError)
deriving DecidableEq

/-- The type allow-list of `create_content_type`:
`col_type NOT IN ('TEXT','INTEGER','BOOLEAN','TIMESTAMP','DATE','NUMERIC','JSONB')`
raises. The match is case-sensitive, exactly as the source's `IN` list. -/
def allowedType (ctype : String) : Bool :=
  ctype = "TEXT" || ctype = "INTEGER" || ctype = "BOOLEAN" || ctype = "TIMESTAMP"
    || ctype = "DATE" || ctype = "NUMERIC" || ctype = "JSONB"

/-- The column-definition loop of `create_content_type`: per entry, sanitize
the name, validate the type (raising `Unsupported data type` at the first
offender), and append `format('%s %s %s, ', ...)`. -/
def buildColumnDefs : List (String × String × String) → Except CreateError (List Char)
  | [] => .ok []
  | e :: rest =>
    if allowedType e.2.1 then
      match buildColumnDefs rest with
      | .ok tail => .ok (columnDefFragment e.1 e.2.1 e.2.2 ++ tail)
      | .error err => .error err
    else .error (.unsupportedType e.2.1)

/-- `create_content_type(table_name, schema)`: build the column definitions
(validating each type), trim, raise `EmptySchema` when nothing remains,
`EXECUTE` the create statement, and return the success message. Store
failures propagate — this function has no exception handler. -/
def create_content_type (st : Store) (s : State) (tbl : String)
    (schema : List (String × String × String)) : Except CreateError (List Char × State) :=
  match buildColumnDefs schema with
  | .error err => .error err
  | .ok rawDefs =>
    let defs := trimCS rawDefs
    if defs = [] then .error .emptySchema
    else
      match st.execCreate s tbl schema with
      | .ok s' =>
        .ok ("Table ".data ++ quote_ident tbl.data
              ++ " created successfully (or already exists)".data, s')
      | .error e => .error (.storeError e)

/-- Modelled from the spec: `CollectionManager.createTable`, the Execution
Gateway / Outcome Normalizer boundary for create-collection. The controller
file is not under `src/` (only its router, `collectionRouter.post('/create',
CollectionManager.createTable)`, is); per spec §4.6/§7 every failure raised
during execution is caught at this boundary and degrades to
`success:false`, never terminating the request path. -/
def createTable (st : Store) (s : State) (tbl : String)
    (schema : List (String × String × String)) : Bool × State :=
  match create_content_type st s tbl schema with
  | .ok (_, s') => (true, s')
  | .error _ => (false, s)

/-- `insert_into_content_type(table_name, data)`: build the name and value
lists, return `FALSE` (via its own `EXCEPTION` handler catching the raised
`Data must contain at least one column`) when either trimmed list is empty,
otherwise `EXECUTE` the insert; `TRUE` on success, and the handler turns
any store failure into `FALSE` with the block's effects rolled back. -/
def insert_into_content_type (st : Store) (s : State) (tbl : String)
    (data : List (String × JsonVal)) : Bool × State :=
  if insertNames data = [] ∨ insertValues data = [] then (false, s)
  else
    match st.execInsert s tbl data with
    | .ok (_, s') => (true, s')
    | .error _ => (false, s)

/-- `update_content_type_data(table_name, id, update_data)`: build the `SET`
fragments; `RETURN FALSE` before any `EXECUTE` when the trimmed fragment
text is empty; otherwise execute and return `row_count > 0`, the
`EXCEPTION` handler turning any store failure into `FALSE`. -/
def update_content_type_data (st : Store) (s : State) (tbl : String)
    (recordId : Int) (upd : List (String × JsonVal)) : Bool × State :=
  if updatePairs upd = [] then (false, s)
  else
    match st.execUpdate s tbl recordId upd with
    | .ok (n, s') => (decide (n > 0), s')
    | .error _ => (false, s)

/-- `delete_content_type_data(table_name, record_id)`: `EXECUTE` the delete
and return `row_count > 0`, the `EXCEPTION` handler turning any store
failure into `FALSE`. -/
def delete_content_type_data (st : Store) (s : State) (tbl : String)
    (recordId : Int) : Bool × State :=
  match st.execDelete s tbl recordId with
  | .ok (n, s') => (decide (n > 0), s')
  | .error _ => (false, s)

/-- Look up the row of a table carrying a given `id` (the read half of the
insert/read round trip). -/
def selectById (s : State) (tbl : String) (recordId : Int) :
    Option (List (String × StoredVal)) :=
  (lookupTable s tbl).bind fun t => t.rows.find? (rowHasId recordId)

/-! ## Statement lexing

To state that a sanitized name is embedded as exactly one identifier token
(and an encoded value as exactly one string literal), the store's scanner is
modelled for those two token shapes: an identifier (bare, or double-quoted
with `""` standing for an embedded quote) and a string literal (standard
`'...'` with `''` doubling, or `E'...'` adding backslash escapes). -/

/-- Characters the scanner allows inside a bare identifier token. -/
def lexIdentChar (c : Char) : Bool :=
  (('a' ≤ c) && (c ≤ 'z')) || (('A' ≤ c) && (c ≤ 'Z'))
    || (('0' ≤ c) && (c ≤ '9')) || c = '_' || c = '$'

/-- Scan the body of a double-quoted identifier (after the opening `"`):
`""` continues the token as an escaped quote, a lone `"` closes it. Returns
the consumed characters (closing quote included) and the remainder. -/
def lexQuoted : List Char → Option (List Char × List Char)
  | [] => none
  | c :: rest =>
    if c = '"' then
      if rest.head? = some '"' then
        (lexQuoted rest.tail).map (fun p => ('"' :: '"' :: p.1, p.2))
      else some (['"'], rest)
    else (lexQuoted rest).map (fun p => (c :: p.1, p.2))
termination_by cs => cs.length
decreasing_by
  · simp [List.length_tail]; omega
  · simp

/-- Scan one identifier token: a double-quoted identifier, or the maximal
run of bare identifier characters. Returns the token and the remainder. -/
def lexIdent : List Char → Option (List Char × List Char)
  | [] => none
  | c :: rest =>
    if c = '"' then (lexQuoted rest).map (fun p => ('"' :: p.1, p.2))
    else if lexIdentChar c then
      some (c :: rest.takeWhile lexIdentChar, rest.dropWhile lexIdentChar)
    else none

/-- The text is exactly one identifier token: the scanner consumes all of it
as a single token. -/
def singleIdentToken (cs : List Char) : Prop :=
  lexIdent cs = some (cs, [])

/-- Scan the body of a standard `'...'` literal (after the opening `'`):
`''` continues the token, a lone `'` closes it. -/
def lexLitBodyStd : List Char → Option (List Char × List Char)
  | [] => none
  | c :: rest =>
    if c = '\'' then
      if rest.head? = some '\'' then
        (lexLitBodyStd rest.tail).map (fun p => ('\'' :: '\'' :: p.1, p.2))
      else some (['\''], rest)
    else (lexLitBodyStd rest).map (fun p => (c :: p.1, p.2))
termination_by cs => cs.length
decreasing_by
  · simp [List.length_tail]; omega
  · simp

/-- Scan the body of an `E'...'` literal: a backslash escapes the next
character, `''` continues the token, a lone `'` closes it. -/
def lexLitBodyE : List Char → Option (List Char × List Char)
  | [] => none
  | c :: rest =>
    if c = '\\' then
      match rest.head? with
      | some d => (lexLitBodyE rest.tail).map (fun p => ('\\' :: d :: p.1, p.2))
      | none => none
    else if c = '\'' then
      if rest.head? = some '\'' then
        (lexLitBodyE rest.tail).map (fun p => ('\'' :: '\'' :: p.1, p.2))
      else some (['\''], rest)
    else (lexLitBodyE rest).map (fun p => (c :: p.1, p.2))
termination_by cs => cs.length
decreasing_by
  · simp [List.length_tail]; omega
  · simp [List.length_tail]; omega
  · simp

/-- Scan one string-literal token: `E'...'` or standard `'...'`. -/
def lexLit (cs : List Char) : Option (List Char × List Char) :=
  match cs with
  | 'E' :: '\'' :: rest => (lexLitBodyE rest).map (fun p => ('E' :: '\'' :: p.1, p.2))
  | '\'' :: rest => (lexLitBodyStd rest).map (fun p => ('\'' :: p.1, p.2))
  | _ => none

/-- The text is exactly one string-literal token. -/
def singleLiteralToken (cs : List Char) : Prop :=
  lexLit cs = some (cs, [])

/-! ## Token and shape lemmas -/

theorem safeIdentStart_lexIdentChar {c : Char} (h : safeIdentStart c = true) :
    lexIdentChar c = true := by
  simp only [safeIdentStart, Bool.or_eq_true, Bool.and_eq_true, decide_eq_true_eq] at h
  rcases h with ⟨h1, h2⟩ | h
  · simp [lexIdentChar, h1, h2]
  · subst h; decide

theorem safeIdentChar_lexIdentChar {c : Char} (h : safeIdentChar c = true) :
    lexIdentChar c = true := by
  simp only [safeIdentChar, Bool.or_eq_true, Bool.and_eq_true, decide_eq_true_eq] at h
  rcases h with (⟨h1, h2⟩ | ⟨h1, h2⟩) | h
  · simp [lexIdentChar, h1, h2]
  · simp [lexIdentChar, h1, h2]
  · subst h; decide

theorem safeIdentStart_ne_quote {c : Char} (h : safeIdentStart c = true) : c ≠ '"' := by
  intro hc; subst hc; revert h; decide

theorem lexQuoted_escDouble (raw rest : List Char) (h : rest.head? ≠ some '"') :
    lexQuoted (escDoubleQuote raw ++ '"' :: rest) =
      some (escDoubleQuote raw ++ ['"'], rest) := by
  induction raw with
  | nil => simp [escDoubleQuote, lexQuoted, h]
  | cons a raw ih =>
    by_cases ha : a = '"'
    · subst ha
      simp [escDoubleQuote, lexQuoted, ih]
    · simp [escDoubleQuote, ha, lexQuoted, ih]

theorem singleIdent_quote_ident (raw : List Char) : singleIdentToken (quote_ident raw) := by
  unfold singleIdentToken quote_ident
  by_cases hs : isSafeUnquoted raw
  · simp only [if_pos hs]
    match raw, hs with
    | c :: rest, hs =>
      simp only [isSafeUnquoted, Bool.and_eq_true] at hs
      obtain ⟨h1, h2⟩ := hs
      have hq : c ≠ '"' := safeIdentStart_ne_quote h1
      have hall : ∀ x ∈ rest, lexIdentChar x = true := by
        intro x hx
        exact safeIdentChar_lexIdentChar (List.all_eq_true.mp h2 x hx)
      simp [lexIdent, hq, safeIdentStart_lexIdentChar h1,
        List.takeWhile_eq_self_iff.mpr hall, List.dropWhile_eq_nil_iff.mpr hall]
  · simp only [if_neg hs]
    have := lexQuoted_escDouble raw [] (by simp)
    simp [lexIdent, this]



theorem lexIdent_append (raw : List Char) (c : Char) (rest : List Char)
    (hc1 : lexIdentChar c = false) (hc2 : c ≠ '"') :
    lexIdent (quote_ident raw ++ c :: rest) = some (quote_ident raw, c :: rest) := by
  unfold quote_ident
  by_cases hs : isSafeUnquoted raw
  · simp only [if_pos hs]
    match raw, hs with
    | a :: tl, hs =>
      simp only [isSafeUnquoted, Bool.and_eq_true] at hs
      obtain ⟨h1, h2⟩ := hs
      have hall : (tl.takeWhile lexIdentChar).length = tl.length := by
        rw [List.takeWhile_eq_self_iff.mpr]
        intro x hx
        exact safeIdentChar_lexIdentChar (List.all_eq_true.mp h2 x hx)
      have htake : tl.takeWhile lexIdentChar = tl := by
        rw [List.takeWhile_eq_self_iff]
        intro x hx
        exact safeIdentChar_lexIdentChar (List.all_eq_true.mp h2 x hx)
      have hdrop : tl.dropWhile lexIdentChar = [] := by
        rw [List.dropWhile_eq_nil_iff]
        intro x hx
        exact safeIdentChar_lexIdentChar (List.all_eq_true.mp h2 x hx)
      simp [lexIdent, safeIdentStart_ne_quote h1, safeIdentStart_lexIdentChar h1,
        List.takeWhile_append, List.dropWhile_append, htake, hdrop,
        List.takeWhile_cons, List.dropWhile_cons, hc1]
  · simp only [if_neg hs]
    have key := lexQuoted_escDouble raw (c :: rest) (by simp [hc2])
    simp [lexIdent, List.append_assoc, key]



theorem lexLitBodyStd_escLitStd (s rest : List Char) (h : rest.head? ≠ some '\'') :
    lexLitBodyStd (escLitStd s ++ '\'' :: rest) = some (escLitStd s ++ ['\''], rest) := by
  induction s with
  | nil => simp [escLitStd, lexLitBodyStd, h]
  | cons a s ih =>
    by_cases ha : a = '\''
    · subst ha
      simp [escLitStd, lexLitBodyStd, ih]
    · simp [escLitStd, ha, lexLitBodyStd, ih]

theorem lexLitBodyE_escLitE (s rest : List Char) (h : rest.head? ≠ some '\'') :
    lexLitBodyE (escLitE s ++ '\'' :: rest) = some (escLitE s ++ ['\''], rest) := by
  induction s with
  | nil => simp [escLitE, lexLitBodyE, h]
  | cons a s ih =>
    by_cases ha : a = '\''
    · subst ha
      simp [escLitE, lexLitBodyE, ih]
    · by_cases hb : a = '\\'
      · subst hb
        simp [escLitE, lexLitBodyE, ih]
      · simp [escLitE, ha, hb, lexLitBodyE, ih]

theorem singleLiteral_quote_literal (s : List Char) : singleLiteralToken (quote_literal s) := by
  unfold singleLiteralToken quote_literal
  by_cases hb : '\\' ∈ s
  · have key := lexLitBodyE_escLitE s [] (by simp)
    simp [hb, lexLit, key]
  · have key := lexLitBodyStd_escLitStd s [] (by simp)
    simp [hb, lexLit, key]



def joinSep (sep : List Char) : List (List Char) → List Char
  | [] => []
  | [p] => p
  | p :: ps => p ++ sep ++ joinSep sep ps

theorem foldl_sep_eq {α : Type} (f : α → List Char) (sep : List Char) :
    ∀ (data : List α) (acc : List Char),
      data.foldl (fun acc kv => acc ++ f kv ++ sep) acc
        = acc ++ (data.map (fun kv => f kv ++ sep)).flatten := by
  intro data
  induction data with
  | nil => intro acc; simp
  | cons a tl ih =>
    intro acc
    simp only [List.foldl_cons, List.map_cons, List.flatten_cons, ih]
    simp [List.append_assoc]

theorem flatten_sep_eq_joinSep (sep : List Char) :
    ∀ (parts : List (List Char)), parts ≠ [] →
      (parts.map (fun p => p ++ sep)).flatten = joinSep sep parts ++ sep := by
  intro parts
  induction parts with
  | nil => intro h; exact absurd rfl h
  | cons p ps ih =>
    intro _
    cases ps with
    | nil => simp [joinSep]
    | cons q qs =>
      rw [List.map_cons, List.flatten_cons, ih (by simp)]
      simp [joinSep, List.append_assoc]

theorem joinSep_head (sep : List Char) (p : List Char) (ps : List (List Char)) :
    ∃ Y, joinSep sep (p :: ps) = p ++ Y := by
  cases ps with
  | nil => exact ⟨[], by simp [joinSep]⟩
  | cons q qs => exact ⟨sep ++ joinSep sep (q :: qs), by simp [joinSep, List.append_assoc]⟩

theorem joinSep_reverse_head (sep : List Char) :
    ∀ (parts : List (List Char)), parts ≠ [] →
      (∀ p ∈ parts, ∃ b bs, p = bs ++ [b] ∧ isTrimChar b = false) →
      ∃ b B, (joinSep sep parts).reverse = b :: B ∧ isTrimChar b = false := by
  intro parts
  induction parts with
  | nil => intro h; exact absurd rfl h
  | cons p ps ih =>
    intro _ hlast
    cases ps with
    | nil =>
      obtain ⟨b, bs, hp, hb⟩ := hlast p (by simp)
      exact ⟨b, bs.reverse, by simp [joinSep, hp], hb⟩
    | cons q qs =>
      obtain ⟨b, B, hrev, hb⟩ := ih (by simp) (fun r hr => hlast r (by simp [hr]))
      refine ⟨b, B ++ (p ++ sep).reverse, ?_, hb⟩
      have : joinSep sep (p :: q :: qs) = (p ++ sep) ++ joinSep sep (q :: qs) := by
        simp [joinSep, List.append_assoc]
      rw [this, List.reverse_append, hrev]
      simp

theorem trimCS_append_sep (J : List Char) (a : Char) (Y : List Char)
    (hJ : J = a :: Y) (ha : isTrimChar a = false)
    (b : Char) (B : List Char) (hrev : J.reverse = b :: B) (hb : isTrimChar b = false) :
    trimCS (J ++ ", ".data) = J := by
  unfold trimCS
  have h1 : (J ++ ", ".data).dropWhile isTrimChar = J ++ ", ".data := by
    rw [hJ]
    simp [List.dropWhile_cons, ha]
  rw [h1, List.reverse_append, hrev]
  have h2 : (", ".data).reverse ++ b :: B = ' ' :: ',' :: b :: B := rfl
  rw [h2]
  have hb' : ¬(b = ',') ∧ ¬(b = ' ') := by
    constructor <;> intro h <;> subst h <;> simp [isTrimChar] at hb
  have h3 : (' ' :: ',' :: b :: B).dropWhile isTrimChar = b :: B := by
    simp [List.dropWhile_cons, isTrimChar, hb'.1, hb'.2]
  rw [h3, ← hrev, List.reverse_reverse]

theorem trimCS_join (parts : List (List Char)) (hne : parts ≠ [])
    (hhead : ∀ p ∈ parts, ∃ a as, p = a :: as ∧ isTrimChar a = false)
    (hlast : ∀ p ∈ parts, ∃ b bs, p = bs ++ [b] ∧ isTrimChar b = false) :
    trimCS (joinSep ", ".data parts ++ ", ".data) = joinSep ", ".data parts := by
  match parts, hne with
  | p :: ps, _ =>
    obtain ⟨a, as, hp, ha⟩ := hhead p (by simp)
    obtain ⟨Y, hJ⟩ := joinSep_head ", ".data p ps
    obtain ⟨b, B, hrev, hb⟩ := joinSep_reverse_head ", ".data (p :: ps) (by simp) hlast
    exact trimCS_append_sep _ a (as ++ Y) (by rw [hJ, hp]; rfl) ha b B hrev hb



theorem safeIdentStart_safeIdentChar {c : Char} (h : safeIdentStart c = true) :
    safeIdentChar c = true := by
  simp only [safeIdentStart, Bool.or_eq_true, Bool.and_eq_true, decide_eq_true_eq] at h
  rcases h with ⟨h1, h2⟩ | h
  · simp [safeIdentChar, h1, h2]
  · subst h; decide

theorem safeIdentChar_not_trim {c : Char} (h : safeIdentChar c = true) :
    isTrimChar c = false := by
  by_cases h1 : c = ','
  · subst h1; revert h; decide
  · by_cases h2 : c = ' '
    · subst h2; revert h; decide
    · simp [isTrimChar, h1, h2]

theorem isSafeUnquoted_mem {raw : List Char} (h : isSafeUnquoted raw = true) :
    ∀ x ∈ raw, safeIdentChar x = true := by
  match raw, h with
  | c :: rest, h =>
    simp only [isSafeUnquoted, Bool.and_eq_true] at h
    intro x hx
    rcases List.mem_cons.mp hx with hx | hx
    · subst hx; exact safeIdentStart_safeIdentChar h.1
    · exact List.all_eq_true.mp h.2 x hx

theorem quote_ident_head (raw : List Char) :
    ∃ a as, quote_ident raw = a :: as ∧ isTrimChar a = false := by
  unfold quote_ident
  by_cases hs : isSafeUnquoted raw
  · simp only [if_pos hs]
    match raw, hs with
    | c :: rest, hs =>
      refine ⟨c, rest, rfl, ?_⟩
      exact safeIdentChar_not_trim (isSafeUnquoted_mem hs c (by simp))
  · exact ⟨'"', escDoubleQuote raw ++ ['"'], by simp [hs], by decide⟩

theorem quote_ident_last (raw : List Char) :
    ∃ b bs, quote_ident raw = bs ++ [b] ∧ isTrimChar b = false := by
  unfold quote_ident
  by_cases hs : isSafeUnquoted raw
  · simp only [if_pos hs]
    rcases List.eq_nil_or_concat raw with hraw | ⟨L, b, hraw⟩
    · subst hraw; simp [isSafeUnquoted] at hs
    · subst hraw
      refine ⟨b, L, by simp, ?_⟩
      exact safeIdentChar_not_trim (isSafeUnquoted_mem hs b (by simp))
  · exact ⟨'"', '"' :: escDoubleQuote raw, by simp [hs], by decide⟩

theorem quote_literal_head (s : List Char) :
    ∃ a as, quote_literal s = a :: as ∧ isTrimChar a = false := by
  unfold quote_literal
  by_cases hb : '\\' ∈ s
  · exact ⟨'E', '\'' :: (escLitE s ++ ['\'']), by simp [hb], by decide⟩
  · exact ⟨'\'', escLitStd s ++ ['\''], by simp [hb], by decide⟩

theorem quote_literal_last (s : List Char) :
    ∃ b bs, quote_literal s = bs ++ [b] ∧ isTrimChar b = false := by
  unfold quote_literal
  by_cases hb : '\\' ∈ s
  · exact ⟨'\'', 'E' :: '\'' :: escLitE s, by simp [hb], by decide⟩
  · exact ⟨'\'', '\'' :: escLitStd s, by simp [hb], by decide⟩

theorem insertNames_eq_joinSep (data : List (String × JsonVal)) (hne : data ≠ []) :
    insertNames data
      = joinSep ", ".data (data.map fun kv => quote_ident kv.1.data) := by
  unfold insertNames
  rw [foldl_sep_eq (fun kv => quote_ident kv.1.data) ", ".data data []]
  rw [List.nil_append]
  have hmap : data.map (fun kv => quote_ident kv.1.data ++ ", ".data)
      = ((data.map fun kv => quote_ident kv.1.data).map fun p => p ++ ", ".data) := by
    simp
  rw [hmap, flatten_sep_eq_joinSep ", ".data _ (by simpa using hne)]
  apply trimCS_join _ (by simpa using hne)
  · intro p hp
    obtain ⟨kv, _, hkv⟩ := List.mem_map.mp hp
    exact hkv ▸ quote_ident_head kv.1.data
  · intro p hp
    obtain ⟨kv, _, hkv⟩ := List.mem_map.mp hp
    exact hkv ▸ quote_ident_last kv.1.data

theorem insertValues_eq_joinSep (data : List (String × JsonVal)) (hne : data ≠ []) :
    insertValues data = joinSep ", ".data (data.map fun kv => encodeValue kv.2) := by
  unfold insertValues
  rw [foldl_sep_eq (fun kv => encodeValue kv.2) ", ".data data []]
  rw [List.nil_append]
  have hmap : data.map (fun kv => encodeValue kv.2 ++ ", ".data)
      = ((data.map fun kv => encodeValue kv.2).map fun p => p ++ ", ".data) := by
    simp
  rw [hmap, flatten_sep_eq_joinSep ", ".data _ (by simpa using hne)]
  apply trimCS_join _ (by simpa using hne)
  · intro p hp
    obtain ⟨kv, _, hkv⟩ := List.mem_map.mp hp
    exact hkv ▸ quote_literal_head (jsonTextOf kv.2)
  · intro p hp
    obtain ⟨kv, _, hkv⟩ := List.mem_map.mp hp
    exact hkv ▸ quote_literal_last (jsonTextOf kv.2)

theorem updatePairs_eq_joinSep (upd : List (String × JsonVal)) (hne : upd ≠ []) :
    updatePairs upd = joinSep ", ".data
      (upd.map fun kv => quote_ident kv.1.data ++ " = ".data ++ encodeValue kv.2) := by
  unfold updatePairs
  have hfold : upd.foldl
      (fun acc kv => acc ++ quote_ident kv.1.data ++ " = ".data ++ encodeValue kv.2 ++ ", ".data) []
      = upd.foldl
      (fun acc kv => acc ++ (quote_ident kv.1.data ++ " = ".data ++ encodeValue kv.2) ++ ", ".data) [] := by
    apply List.foldl_ext
    intro acc kv _
    simp [List.append_assoc]
  rw [hfold,
    foldl_sep_eq (fun kv => quote_ident kv.1.data ++ " = ".data ++ encodeValue kv.2) ", ".data upd []]
  rw [List.nil_append]
  have hmap : upd.map (fun kv => (quote_ident kv.1.data ++ " = ".data ++ encodeValue kv.2) ++ ", ".data)
      = ((upd.map fun kv => quote_ident kv.1.data ++ " = ".data ++ encodeValue kv.2).map
          fun p => p ++ ", ".data) := by
    simp
  rw [hmap, flatten_sep_eq_joinSep ", ".data _ (by simpa using hne)]
  apply trimCS_join _ (by simpa using hne)
  · intro p hp
    obtain ⟨kv, _, hkv⟩ := List.mem_map.mp hp
    obtain ⟨a, as, hqi, ha⟩ := quote_ident_head kv.1.data
    exact ⟨a, as ++ " = ".data ++ encodeValue kv.2, by rw [← hkv, hqi]; simp [List.append_assoc], ha⟩
  · intro p hp
    obtain ⟨kv, _, hkv⟩ := List.mem_map.mp hp
    obtain ⟨b, bs, hql, hb⟩ := quote_literal_last (jsonTextOf kv.2)
    refine ⟨b, quote_ident kv.1.data ++ " = ".data ++ bs, ?_, hb⟩
    rw [← hkv]
    show quote_ident kv.1.data ++ " = ".data ++ encodeValue kv.2 = _
    rw [show encodeValue kv.2 = quote_literal (jsonTextOf kv.2) from rfl, hql]
    simp [List.append_assoc]


/-! ## Claims -/

/-- Claim C1: every table or column name, whatever characters it contains
(quotes and statement terminators included), is embedded in the statement
built by create-collection, insert, update, or delete only through
`quote_ident`, whose output is always exactly one identifier token; the
scanner consumes precisely that token before the statement template
resumes, so the name targets exactly one identifier and cannot alter the
statement's structural shape. -/
theorem c1_identifier_injection_safety :
    (∀ raw : List Char, singleIdentToken (quote_ident raw))
    ∧ (∀ (raw : List Char) (c : Char) (rest : List Char),
        lexIdentChar c = false → c ≠ '"' →
        lexIdent (quote_ident raw ++ c :: rest) = some (quote_ident raw, c :: rest))
    ∧ (∀ (tbl : String) (defs : List Char),
        create_stmt tbl defs
          = "CREATE TABLE IF NOT EXISTS ".data ++ quote_ident tbl.data
              ++ " (id SERIAL PRIMARY KEY, ".data ++ defs ++ ");".data)
    ∧ (∀ (tbl : String) (data : List (String × JsonVal)),
        insert_stmt tbl data
          = "INSERT INTO ".data ++ quote_ident tbl.data ++ " (".data ++ insertNames data
              ++ ") VALUES (".data ++ insertValues data ++ ");".data)
    ∧ (∀ (tbl : String) (recordId : Int) (upd : List (String × JsonVal)),
        update_stmt tbl recordId upd
          = "UPDATE ".data ++ quote_ident tbl.data ++ " SET ".data ++ updatePairs upd
              ++ " WHERE id = ".data ++ intChars recordId ++ ";".data)
    ∧ (∀ (tbl : String) (recordId : Int),
        delete_stmt tbl recordId
          = "DELETE FROM ".data ++ quote_ident tbl.data ++ " WHERE id = ".data
              ++ intChars recordId ++ ";".data)
    ∧ (∀ (tbl : String) (recordId : Int),
        lexIdent ((delete_stmt tbl recordId).drop 12)
          = some (quote_ident tbl.data,
              " WHERE id = ".data ++ intChars recordId ++ ";".data))
    ∧ (∀ data : List (String × JsonVal), data ≠ [] →
        insertNames data = joinSep ", ".data (data.map fun kv => quote_ident kv.1.data))
    ∧ (∀ upd : List (String × JsonVal), upd ≠ [] →
        updatePairs upd = joinSep ", ".data
          (upd.map fun kv => quote_ident kv.1.data ++ " = ".data ++ encodeValue kv.2)) := by
  refine ⟨singleIdent_quote_ident, lexIdent_append, fun _ _ => rfl, fun _ _ => rfl,
    fun _ _ _ => rfl, fun _ _ => rfl, ?_, insertNames_eq_joinSep, updatePairs_eq_joinSep⟩
  intro tbl recordId
  have hdrop : (delete_stmt tbl recordId).drop 12
      = quote_ident tbl.data ++ (" WHERE id = ".data ++ intChars recordId ++ ";".data) := by
    have hlen : ("DELETE FROM ".data).length = 12 := by decide
    rw [show delete_stmt tbl recordId
        = "DELETE FROM ".data ++ (quote_ident tbl.data
            ++ (" WHERE id = ".data ++ intChars recordId ++ ";".data)) by
      simp [delete_stmt, List.append_assoc]]
    rw [← hlen, List.drop_left]
  rw [hdrop]
  have key := lexIdent_append tbl.data ' '
    ("WHERE id = ".data ++ intChars recordId ++ ";".data) (by decide) (by decide)
  have hshape : (" WHERE id = ".data ++ intChars recordId ++ ";".data)
      = ' ' :: ("WHERE id = ".data ++ intChars recordId ++ ";".data) := by
    simp [List.append_assoc]
  rw [hshape]
  exact key

/-- Witness for C1 at a hostile concrete name: a column name containing a
quote, a space and a statement terminator is consumed as exactly one
identifier token, the template continuation untouched. -/
theorem c1_witness :
    lexIdent (quote_ident "bad\"name; drop table x".data ++ ' ' :: "(".data)
      = some (quote_ident "bad\"name; drop table x".data, ' ' :: "(".data)
    ∧ insertNames [("a", JsonVal.num 1), ("b", JsonVal.num 2)]
      = joinSep ", ".data
          ([("a", JsonVal.num 1), ("b", JsonVal.num 2)].map fun kv => quote_ident kv.1.data) :=
  ⟨c1_identifier_injection_safety.2.1 "bad\"name; drop table x".data ' ' "(".data
      (by decide) (by decide),
    c1_identifier_injection_safety.2.2.2.2.2.2.2.1 [("a", JsonVal.num 1), ("b", JsonVal.num 2)]
      (by simp)⟩



/-- Claim C2, counterexample: the engine's encoder quotes every value — the
boolean `true` is emitted as the quoted literal text `'true'`, not as the
bare word `true`, and the jsonb `null` is emitted as the quoted word
`'null'`, not as the store's bare `NULL` literal. This refutes both the
"numbers and booleans are emitted without quoting" and the "null encodes to
the store's null literal" parts of the claim. -/
theorem c2_counterexample :
    encodeValue (.bool true) = "'true'".data
    ∧ "'true'".data ≠ "true".data
    ∧ encodeValue .null = "'null'".data
    ∧ "'null'".data ≠ "NULL".data
    ∧ encodeValue (.num 7) = "'7'".data := by
  refine ⟨by decide, by decide, by decide, by decide, by decide⟩

/-- Claim C2 as amended: every value — string, document, number, boolean or
null alike — is serialized to its jsonb text form and emitted as one single
quoted literal token with embedded quote characters doubled (texts holding
a backslash use the `E'...'` form); in particular jsonb `null` encodes as
the quoted text `'null'`, and a value list is the `", "`-join of such
literal tokens. -/
theorem c2_amended_literal_encoding :
    (∀ v : JsonVal, encodeValue v = quote_literal (jsonTextOf v))
    ∧ (∀ v : JsonVal, singleLiteralToken (encodeValue v))
    ∧ (∀ s : List Char, singleLiteralToken (quote_literal s))
    ∧ (∀ data : List (String × JsonVal), data ≠ [] →
        insertValues data = joinSep ", ".data (data.map fun kv => encodeValue kv.2))
    ∧ encodeValue .null = '\'' :: ("null".data ++ ['\'']) :=
  ⟨fun _ => rfl, fun v => singleLiteral_quote_literal (jsonTextOf v),
    singleLiteral_quote_literal, insertValues_eq_joinSep, by decide⟩

/-- Witness for the amended C2 at concrete values, a backslash-bearing
string included. -/
theorem c2_amended_witness :
    singleLiteralToken (encodeValue (.str "a\\b'c"))
    ∧ insertValues [("title", JsonVal.str "x")]
      = joinSep ", ".data ([("title", JsonVal.str "x")].map fun kv => encodeValue kv.2) :=
  ⟨c2_amended_literal_encoding.2.1 (.str "a\\b'c"),
    c2_amended_literal_encoding.2.2.2.1 [("title", JsonVal.str "x")] (by simp)⟩

/-- Claim C9, counterexample: identifier sanitization never fails — the
empty raw name is sanitized to the two-character token `""` and the insert
statement is still built around it, so no `InvalidIdentifier` failure
precedes statement construction. -/
theorem c9_counterexample :
    quote_ident "".data = ['"', '"']
    ∧ insert_stmt "t" [("", JsonVal.num 1)]
      = "INSERT INTO t (\"\") VALUES ('1');".data := by
  refine ⟨by decide, by decide⟩

/-- Claim C9 as amended: sanitization is total — every raw name, the empty
string included, is representable and embedded as a single identifier
token; an empty column name is rejected only by the store when the built
statement executes (PostgreSQL's zero-length-identifier / undefined-column
error), which the engine degrades to `success:false`. -/
theorem c9_amended_sanitization_total :
    (∀ raw : List Char, singleIdentToken (quote_ident raw))
    ∧ quote_ident [] = ['"', '"']
    ∧ (insert_into_content_type pgStore
        [("t", ⟨[idColumn, ("x", "TEXT", "")], [], 1⟩)] "t" [("", JsonVal.num 1)]).1 = false
    ∧ (createTable pgStore [] "" [("a", ("TEXT", ""))]).1 = false :=
  ⟨singleIdent_quote_ident, by decide, by decide, by decide⟩



/-- Claim C4: whatever store the engine executes against and whatever
failure the store raises, each of the four operations catches the failure
at its execution boundary and returns `success:false` with the original
state (the failed block's effects rolled back); no store failure propagates
out of the request path. Create's boundary is the modelled controller
`createTable`; insert, update and delete catch in their own `EXCEPTION`
blocks. -/
theorem c4_store_failures_degrade :
    (∀ (st : Store) (s : State) (tbl : String) (schema : List (String × String × String))
        (e : StoreError), st.execCreate s tbl schema = .error e →
        createTable st s tbl schema = (false, s))
    ∧ (∀ (st : Store) (s : State) (tbl : String) (data : List (String × JsonVal))
        (e : StoreError), st.execInsert s tbl data = .error e →
        insert_into_content_type st s tbl data = (false, s))
    ∧ (∀ (st : Store) (s : State) (tbl : String) (recordId : Int)
        (upd : List (String × JsonVal)) (e : StoreError),
        st.execUpdate s tbl recordId upd = .error e →
        update_content_type_data st s tbl recordId upd = (false, s))
    ∧ (∀ (st : Store) (s : State) (tbl : String) (recordId : Int) (e : StoreError),
        st.execDelete s tbl recordId = .error e →
        delete_content_type_data st s tbl recordId = (false, s)) := by
  refine ⟨?_, ?_, ?_, ?_⟩
  · intro st s tbl schema e h
    unfold createTable create_content_type
    cases hb : buildColumnDefs schema with
    | error err => simp
    | ok rawDefs =>
      by_cases hd : trimCS rawDefs = []
      · simp [hd]
      · simp [hd, h]
  · intro st s tbl data e h
    unfold insert_into_content_type
    by_cases hn : insertNames data = [] ∨ insertValues data = []
    · simp [hn]
    · simp [hn, h]
  · intro st s tbl recordId upd e h
    unfold update_content_type_data
    by_cases hp : updatePairs upd = []
    · simp [hp]
    · simp [hp, h]
  · intro st s tbl recordId e h
    unfold delete_content_type_data
    simp [h]

/-- Witness for C4: a store whose every execution fails with a connectivity
error degrades all four operations to `success:false` at concrete inputs. -/
theorem c4_witness :
    createTable downStore [] "t" [("a", ("TEXT", ""))] = (false, [])
    ∧ insert_into_content_type downStore [] "t" [("a", JsonVal.num 1)] = (false, [])
    ∧ update_content_type_data downStore [] "t" 1 [("a", JsonVal.num 1)] = (false, [])
    ∧ delete_content_type_data downStore [] "t" 1 = (false, []) :=
  ⟨c4_store_failures_degrade.1 downStore [] "t" [("a", ("TEXT", ""))] (.other "connection lost") rfl,
    c4_store_failures_degrade.2.1 downStore [] "t" [("a", JsonVal.num 1)] (.other "connection lost") rfl,
    c4_store_failures_degrade.2.2.1 downStore [] "t" 1 [("a", JsonVal.num 1)] (.other "connection lost") rfl,
    c4_store_failures_degrade.2.2.2 downStore [] "t" 1 (.other "connection lost") rfl⟩

/-- Claim C7: an update whose mapping is empty short-circuits to
`success:false` against any store whatsoever — no statement is issued and
the state (hence every row of the target table) is unchanged. -/
theorem c7_empty_update_noop :
    ∀ (st : Store) (s : State) (tbl : String) (recordId : Int),
      update_content_type_data st s tbl recordId [] = (false, s) := by
  intro st s tbl recordId
  unfold update_content_type_data
  simp [updatePairs, trimCS]



theorem updatePairs_ne_nil {upd : List (String × JsonVal)} (h : upd ≠ []) :
    updatePairs upd ≠ [] := by
  rw [updatePairs_eq_joinSep upd h]
  match upd, h with
  | kv :: tl, _ =>
    rw [List.map_cons]
    obtain ⟨Y, hJ⟩ := joinSep_head ", ".data _ _
    rw [hJ]
    obtain ⟨a, as, hq, _⟩ := quote_ident_head kv.1.data
    simp [hq]

theorem pgExecUpdate_count {s : State} {tbl : String} {recordId : Int}
    {upd : List (String × JsonVal)} {n : Nat} {s' : State}
    (h : pgExecUpdate s tbl recordId upd = .ok (n, s')) :
    ∃ t, lookupTable s tbl = some t
      ∧ n = (t.rows.filter (rowHasId recordId)).length := by
  unfold pgExecUpdate at h
  cases hl : lookupTable s tbl with
  | none => rw [hl] at h; cases h
  | some t =>
    rw [hl] at h
    dsimp only at h
    refine ⟨t, rfl, ?_⟩
    by_cases hnd : (upd.map Prod.fst).Nodup
    · rw [if_pos hnd] at h
      cases hf : missingColumn t upd with
      | some kv => rw [hf] at h; cases h
      | none =>
        rw [hf] at h
        cases hm : upd.mapM (coercePair t) with
        | none => rw [hm] at h; cases h
        | some pairs =>
          rw [hm] at h
          simp only [Except.ok.injEq, Prod.mk.injEq] at h
          exact h.1.symm
    · rw [if_neg hnd] at h; cases h

theorem pgExecDelete_count {s : State} {tbl : String} {recordId : Int}
    {n : Nat} {s' : State}
    (h : pgExecDelete s tbl recordId = .ok (n, s')) :
    ∃ t, lookupTable s tbl = some t
      ∧ n = (t.rows.filter (rowHasId recordId)).length := by
  unfold pgExecDelete at h
  cases hl : lookupTable s tbl with
  | none => rw [hl] at h; cases h
  | some t =>
    rw [hl] at h
    dsimp only at h
    simp only [Except.ok.injEq, Prod.mk.injEq] at h
    exact ⟨t, rfl, h.1.symm⟩

/-- Claim C5: for an update (with a nonempty mapping) or delete whose
statement executes without a store failure against the modelled store, the
operation reports `success:true` exactly when the affected-row count is
positive — and that count is precisely the number of rows of the target
table whose `id` matches; zero matched rows therefore yield the same
`success:false` a failed statement yields. -/
theorem c5_success_iff_rows_affected :
    (∀ (s : State) (tbl : String) (recordId : Int) (upd : List (String × JsonVal))
        (n : Nat) (s' : State), upd ≠ [] →
        pgExecUpdate s tbl recordId upd = .ok (n, s') →
        ((update_content_type_data pgStore s tbl recordId upd).1 = true ↔ 0 < n)
          ∧ ∃ t, lookupTable s tbl = some t
              ∧ n = (t.rows.filter (rowHasId recordId)).length)
    ∧ (∀ (s : State) (tbl : String) (recordId : Int) (n : Nat) (s' : State),
        pgExecDelete s tbl recordId = .ok (n, s') →
        ((delete_content_type_data pgStore s tbl recordId).1 = true ↔ 0 < n)
          ∧ ∃ t, lookupTable s tbl = some t
              ∧ n = (t.rows.filter (rowHasId recordId)).length) := by
  constructor
  · intro s tbl recordId upd n s' hne h
    refine ⟨?_, pgExecUpdate_count h⟩
    unfold update_content_type_data
    rw [if_neg (updatePairs_ne_nil hne)]
    rw [show pgStore.execUpdate = pgExecUpdate from rfl, h]
    simp
  · intro s tbl recordId n s' h
    refine ⟨?_, pgExecDelete_count h⟩
    unfold delete_content_type_data
    rw [show pgStore.execDelete = pgExecDelete from rfl, h]
    simp

/-- A one-table, one-row state used to exercise the theorems concretely. -/
def demoTable : Table :=
  ⟨[idColumn, ("title", "TEXT", "")], [[("id", .sInt 1), ("title", .sText "x".data)]], 2⟩

/-- The state holding just `demoTable` under the name `t`. -/
def demoState : State := [("t", demoTable)]

/-- Witness for C5: updating the existing row 1 succeeds with one row
affected; updating the absent row 99 and deleting the absent row 99 report
`false` with zero rows affected. -/
theorem c5_witness :
    (((update_content_type_data pgStore demoState "t" 1
        [("title", JsonVal.str "y")]).1 = true ↔ 0 < 1)
      ∧ ∃ t, lookupTable demoState "t" = some t
          ∧ 1 = (t.rows.filter (rowHasId 1)).length)
    ∧ (((update_content_type_data pgStore demoState "t" 99
        [("title", JsonVal.str "y")]).1 = true ↔ 0 < 0)
      ∧ ∃ t, lookupTable demoState "t" = some t
          ∧ 0 = (t.rows.filter (rowHasId 99)).length)
    ∧ (((delete_content_type_data pgStore demoState "t" 99).1 = true ↔ 0 < 0)
      ∧ ∃ t, lookupTable demoState "t" = some t
          ∧ 0 = (t.rows.filter (rowHasId 99)).length) :=
  ⟨c5_success_iff_rows_affected.1 demoState "t" 1 [("title", JsonVal.str "y")] 1
      [("t", ⟨[idColumn, ("title", "TEXT", "")],
        [[("id", .sInt 1), ("title", .sText "\"y\"".data)]], 2⟩)]
      (by simp) rfl,
    c5_success_iff_rows_affected.1 demoState "t" 99 [("title", JsonVal.str "y")] 0
      demoState (by simp) rfl,
    c5_success_iff_rows_affected.2 demoState "t" 99 0 demoState rfl⟩



theorem buildColumnDefs_ok {schema : List (String × String × String)}
    (h : ∀ e ∈ schema, allowedType e.2.1 = true) :
    buildColumnDefs schema
      = .ok ((schema.map fun e => columnDefFragment e.1 e.2.1 e.2.2).flatten) := by
  induction schema with
  | nil => simp [buildColumnDefs]
  | cons e tl ih =>
    rw [buildColumnDefs, if_pos (h e (by simp)), ih (fun x hx => h x (by simp [hx]))]
    simp

theorem trimCS_ne_nil {a : Char} {X : List Char} (ha : isTrimChar a = false) :
    trimCS (a :: X) ≠ [] := by
  unfold trimCS
  rw [List.dropWhile_cons, if_neg (by simp [ha])]
  intro hcontra
  have h1 : ((a :: X).reverse.dropWhile isTrimChar) = [] := by
    have := congrArg List.reverse hcontra
    simpa using this
  have h2 := List.dropWhile_eq_nil_iff.mp h1 a (by simp)
  rw [ha] at h2
  cases h2

theorem columnDefFragment_head (name ctype constr : String) :
    ∃ a as, columnDefFragment name ctype constr = a :: as ∧ isTrimChar a = false := by
  obtain ⟨a, as, hq, ha⟩ := quote_ident_head name.data
  exact ⟨a, as ++ [' '] ++ ctype.data ++ [' '] ++ constr.data ++ ", ".data,
    by simp [columnDefFragment, hq, List.append_assoc], ha⟩

theorem create_content_type_eq {st : Store} {s : State} {tbl : String}
    {schema : List (String × String × String)} (hne : schema ≠ [])
    (hty : ∀ e ∈ schema, allowedType e.2.1 = true) :
    create_content_type st s tbl schema
      = match st.execCreate s tbl schema with
        | .ok s' => .ok ("Table ".data ++ quote_ident tbl.data
            ++ " created successfully (or already exists)".data, s')
        | .error e => .error (.storeError e) := by
  unfold create_content_type
  rw [buildColumnDefs_ok hty]
  dsimp only
  have hdefs : trimCS ((schema.map fun e => columnDefFragment e.1 e.2.1 e.2.2).flatten) ≠ [] := by
    match schema, hne with
    | e :: tl, _ =>
      obtain ⟨a, as, hf, ha⟩ := columnDefFragment_head e.1 e.2.1 e.2.2
      rw [List.map_cons, List.flatten_cons, hf]
      exact trimCS_ne_nil ha
  rw [if_neg hdefs]

theorem pgExecCreate_ok {s : State} {tbl : String}
    {schema : List (String × String × String)} (htbl : tbl ≠ "")
    (hname : ∀ e ∈ schema, e.1 ≠ "")
    (hconstr : ∀ e ∈ schema, modelledConstraint e.2.2 = true)
    (hnd : ("id" :: schema.map Prod.fst).Nodup) :
    pgExecCreate s tbl schema
      = .ok (match lookupTable s tbl with
             | some _ => s
             | none => (tbl, ⟨idColumn :: schema, [], 1⟩) :: s) := by
  unfold pgExecCreate
  cases hl : lookupTable s tbl with
  | some t => rfl
  | none =>
    have hany : ¬ (schema.any (fun e => e.1 = "") = true) := by
      simp only [List.any_eq_true, decide_eq_true_eq]
      rintro ⟨e, he, heq⟩
      exact hname e he heq
    have hcon : ¬ (schema.any (fun e => !(modelledConstraint e.2.2)) = true) := by
      simp only [List.any_eq_true, Bool.not_eq_true']
      rintro ⟨e, he, heq⟩
      rw [hconstr e he] at heq
      cases heq
    rw [if_neg htbl, if_neg hany, if_neg hcon, if_pos hnd]



theorem createTable_step {s : State} {tbl : String}
    {schema : List (String × String × String)} (htbl : tbl ≠ "") (hne : schema ≠ [])
    (hty : ∀ e ∈ schema, allowedType e.2.1 = true)
    (hname : ∀ e ∈ schema, e.1 ≠ "")
    (hconstr : ∀ e ∈ schema, modelledConstraint e.2.2 = true)
    (hnd : ("id" :: schema.map Prod.fst).Nodup) :
    createTable pgStore s tbl schema
      = (true, match lookupTable s tbl with
               | some _ => s
               | none => (tbl, ⟨idColumn :: schema, [], 1⟩) :: s) := by
  unfold createTable
  rw [create_content_type_eq hne hty, show pgStore.execCreate = pgExecCreate from rfl,
    pgExecCreate_ok htbl hname hconstr hnd]

/-- Claim C6, counterexample: the schema mapping `{"id": INTEGER}` has one
entry whose type is drawn from the allow-list, yet the very first
create-collection call fails — the caller column `id` collides with the
auto primary-key column, the store raises a duplicate-column error, and
`create_content_type` (which has no exception handler) propagates it, so
the operation reports `success:false` instead of the claimed success. -/
theorem c6_counterexample :
    allowedType "INTEGER" = true
    ∧ (createTable pgStore [] "t" [("id", ("INTEGER", ""))]).1 = false
    ∧ create_content_type pgStore [] "t" [("id", ("INTEGER", ""))]
        = .error (.storeError .duplicateColumn) := by
  refine ⟨by decide, by decide, rfl⟩

/-- Claim C6 as amended: for every schema mapping with at least one entry,
all types drawn from the allow-list, column names that are nonempty,
mutually distinct and distinct from the auto column `id`, and constraint
texts drawn from the modelled-safe grammar (empty or `NOT NULL` — the
verbatim-interpolated constraint text can otherwise make the statement
itself fail, spec §9), with a nonempty table name, create-collection
succeeds, and a second call with the same name and schema succeeds too and
leaves the state — the created table and its data included — exactly as
the first call left it. -/
theorem c6_amended_create_idempotent :
    ∀ (s : State) (tbl : String) (schema : List (String × String × String)),
      tbl ≠ "" → schema ≠ [] →
      (∀ e ∈ schema, allowedType e.2.1 = true) →
      (∀ e ∈ schema, e.1 ≠ "") →
      (∀ e ∈ schema, modelledConstraint e.2.2 = true) →
      ("id" :: schema.map Prod.fst).Nodup →
      (createTable pgStore s tbl schema).1 = true
      ∧ (createTable pgStore (createTable pgStore s tbl schema).2 tbl schema).1 = true
      ∧ (createTable pgStore (createTable pgStore s tbl schema).2 tbl schema).2
          = (createTable pgStore s tbl schema).2 := by
  intro s tbl schema htbl hne hty hname hconstr hnd
  have h1 := createTable_step (s := s) htbl hne hty hname hconstr hnd
  cases hl : lookupTable s tbl with
  | some t =>
    rw [hl] at h1
    dsimp only at h1
    have h2 := createTable_step (s := s) htbl hne hty hname hconstr hnd
    rw [hl] at h2
    dsimp only at h2
    exact ⟨by rw [h1], by simp [h1, h2], by simp [h1, h2]⟩
  | none =>
    rw [hl] at h1
    dsimp only at h1
    have hlook : lookupTable ((tbl, (⟨idColumn :: schema, [], 1⟩ : Table)) :: s) tbl
        = some ⟨idColumn :: schema, [], 1⟩ := by
      simp [lookupTable, List.lookup]
    have h2 := createTable_step
      (s := (tbl, (⟨idColumn :: schema, [], 1⟩ : Table)) :: s) htbl hne hty hname hconstr hnd
    rw [hlook] at h2
    dsimp only at h2
    exact ⟨by rw [h1], by simp [h1, h2], by simp [h1, h2]⟩

/-- Witness for the amended C6 at a concrete schema. -/
theorem c6_amended_witness :
    (createTable pgStore [] "t" [("a", ("TEXT", "NOT NULL"))]).1 = true
    ∧ (createTable pgStore (createTable pgStore [] "t" [("a", ("TEXT", "NOT NULL"))]).2 "t"
        [("a", ("TEXT", "NOT NULL"))]).1 = true
    ∧ (createTable pgStore (createTable pgStore [] "t" [("a", ("TEXT", "NOT NULL"))]).2 "t"
        [("a", ("TEXT", "NOT NULL"))]).2
      = (createTable pgStore [] "t" [("a", ("TEXT", "NOT NULL"))]).2 :=
  c6_amended_create_idempotent [] "t" [("a", ("TEXT", "NOT NULL"))] (by decide) (by simp)
    (by decide) (by decide) (by decide) (by decide)

theorem buildColumnDefs_bad {schema : List (String × String × String)}
    {name ctype constr : String}
    (hmem : (name, (ctype, constr)) ∈ schema) (hbad : allowedType ctype = false) :
    ∃ t, buildColumnDefs schema = .error (.unsupportedType t) ∧ allowedType t = false := by
  induction schema with
  | nil => cases hmem
  | cons e tl ih =>
    by_cases he : allowedType e.2.1 = true
    · have htl : (name, (ctype, constr)) ∈ tl := by
        rcases List.mem_cons.mp hmem with heq | h
        · exfalso
          rw [← heq] at he
          rw [he] at hbad
          cases hbad
        · exact h
      obtain ⟨t, ht, htb⟩ := ih htl
      refine ⟨t, ?_, htb⟩
      rw [buildColumnDefs, if_pos he, ht]
    · refine ⟨e.2.1, ?_, by simpa using he⟩
      rw [buildColumnDefs, if_neg he]

/-- Claim C8: a schema containing any column whose type tag lies outside
`{TEXT, INTEGER, BOOLEAN, TIMESTAMP, DATE, NUMERIC, JSONB}` (the code's
spelling of the spec's `{text, integer, boolean, timestamp, date, numeric,
structured-document}`) makes `create_content_type` fail with the
`Unsupported data type` error before anything executes, whatever store it
runs against; and every tag in that set passes the type validation. -/
theorem c8_type_allowlist :
    (∀ (st : Store) (s : State) (tbl : String) (schema : List (String × String × String))
        (name ctype constr : String), (name, (ctype, constr)) ∈ schema →
        allowedType ctype = false →
        ∃ t, create_content_type st s tbl schema = .error (.unsupportedType t)
          ∧ allowedType t = false)
    ∧ (∀ ctype : String,
        ctype ∈ ["TEXT", "INTEGER", "BOOLEAN", "TIMESTAMP", "DATE", "NUMERIC", "JSONB"] →
        allowedType ctype = true) := by
  constructor
  · intro st s tbl schema name ctype constr hmem hbad
    obtain ⟨t, ht, htb⟩ := buildColumnDefs_bad hmem hbad
    refine ⟨t, ?_, htb⟩
    unfold create_content_type
    rw [ht]
  · intro ctype h
    fin_cases h <;> decide

/-- Witness for C8: a `FLOAT` column fails type validation with the
unsupported-type error; `TEXT` passes. -/
theorem c8_witness :
    (∃ t, create_content_type pgStore [] "t" [("a", ("FLOAT", ""))]
        = .error (.unsupportedType t) ∧ allowedType t = false)
    ∧ allowedType "TEXT" = true :=
  ⟨c8_type_allowlist.1 pgStore [] "t" [("a", ("FLOAT", ""))] "a" "FLOAT" ""
      (by simp) (by decide),
    c8_type_allowlist.2 "TEXT" (by simp)⟩

/-- Claim C10, counterexample: the caller-chosen column name `id` passes
identifier sanitization unchanged and carries an allow-listed type, yet
create-collection fails on it — the name collides with the auto-assigned
primary identifier column, so creation does not succeed "regardless of the
caller-chosen column names". -/
theorem c10_counterexample :
    quote_ident "id".data = "id".data
    ∧ allowedType "TEXT" = true
    ∧ (createTable pgStore [] "posts" [("id", ("TEXT", "NOT NULL"))]).1 = false := by
  refine ⟨by decide, by decide, by decide⟩

/-- Claim C10 as amended: for every valid schema whose column names are
nonempty, distinct and distinct from `id`, and whose constraint texts are
drawn from the modelled-safe grammar (empty or `NOT NULL` — verbatim
constraint text can otherwise make the statement itself fail, spec §9),
with a fresh, nonempty table name, create-collection succeeds and the
created table carries the auto-assigned `id SERIAL PRIMARY KEY` column in
front of the caller-defined columns. -/
theorem c10_amended_auto_id_column :
    ∀ (s : State) (tbl : String) (schema : List (String × String × String)),
      lookupTable s tbl = none →
      tbl ≠ "" → schema ≠ [] →
      (∀ e ∈ schema, allowedType e.2.1 = true) →
      (∀ e ∈ schema, e.1 ≠ "") →
      (∀ e ∈ schema, modelledConstraint e.2.2 = true) →
      ("id" :: schema.map Prod.fst).Nodup →
      (createTable pgStore s tbl schema).1 = true
      ∧ lookupTable (createTable pgStore s tbl schema).2 tbl
          = some ⟨idColumn :: schema, [], 1⟩ := by
  intro s tbl schema hfresh htbl hne hty hname hconstr hnd
  have h1 := createTable_step (s := s) htbl hne hty hname hconstr hnd
  rw [hfresh] at h1
  dsimp only at h1
  rw [h1]
  exact ⟨rfl, by simp [lookupTable, List.lookup]⟩

/-- Witness for the amended C10 at a concrete schema. -/
theorem c10_amended_witness :
    (createTable pgStore [] "posts" [("title", ("TEXT", "NOT NULL"))]).1 = true
    ∧ lookupTable (createTable pgStore [] "posts" [("title", ("TEXT", "NOT NULL"))]).2 "posts"
        = some ⟨idColumn :: [("title", ("TEXT", "NOT NULL"))], [], 1⟩ :=
  c10_amended_auto_id_column [] "posts" [("title", ("TEXT", "NOT NULL"))] rfl (by decide)
    (by simp) (by decide) (by decide) (by decide) (by decide)

/-- Claim C3, the failing input: create `blog_posts` with a `TEXT` column
`title`, insert the record `{"title": "First Blog"}` (the repository's own
example), and look the row up by its assigned id 1. The insert succeeds,
but the stored and returned value is the jsonb serialization
`"First Blog"` — double quotes included, because the code applies
`quote_literal` to the `jsonb` value rather than its unwrapped text — which
differs from the passed string `First Blog`, breaking the claimed
insert/read round trip. -/
theorem c3_string_roundtrip_bug :
    (insert_into_content_type pgStore
        (createTable pgStore [] "blog_posts" [("title", ("TEXT", "NOT NULL"))]).2
        "blog_posts" [("title", JsonVal.str "First Blog")]).1 = true
    ∧ ((selectById
          (insert_into_content_type pgStore
            (createTable pgStore [] "blog_posts" [("title", ("TEXT", "NOT NULL"))]).2
            "blog_posts" [("title", JsonVal.str "First Blog")]).2
          "blog_posts" 1).map (List.lookup "title"))
        = some (some (.sText "\"First Blog\"".data))
    ∧ StoredVal.sText "\"First Blog\"".data ≠ StoredVal.sText "First Blog".data := by
  refine ⟨by decide, by decide, by decide⟩


end AgileCms
